import Mathlib

/-!
Shallow embedding of the echosnare echo-tracing pipeline.

Each definition below is translated from the corresponding Python function in
the repository (file and function named in its doc comment).  Python strings
are modelled as Lean `String`/`List Char` (ASCII semantics for case mapping
and character classes), Python `float` scores as `ℚ`, Python `dict` lookups as
functions into `Option`, and network responses as explicit input values.
-/

set_option maxHeartbeats 1000000

/-! ### Python string primitives (ASCII semantics) -/

/-- Python whitespace for `str.strip` / `str.split()` and the regex class
`\s` (ASCII range). -/
def pySpace (c : Char) : Bool :=
  c = ' ' || c = '\t' || c = '\n' || c = '\r' || c = '\x0b' || c = '\x0c'

/-- Python `str.strip()`: drop leading and trailing whitespace. -/
def pyStrip (s : String) : String :=
  ⟨((s.data.dropWhile pySpace).reverse.dropWhile pySpace).reverse⟩

/-- Python `str.lower()` (ASCII). -/
def pyLower (s : String) : String := ⟨s.data.map Char.toLower⟩

/-- Python `str.upper()` (ASCII). -/
def pyUpper (s : String) : String := ⟨s.data.map Char.toUpper⟩

/-- Helper for `pySplitWs`: accumulates the current token (reversed). -/
def wsSplitAux : List Char → List Char → List String
  | cur, [] => if cur.isEmpty then [] else [String.mk cur.reverse]
  | cur, c :: rest =>
    if pySpace c then
      if cur.isEmpty then wsSplitAux [] rest
      else String.mk cur.reverse :: wsSplitAux [] rest
    else wsSplitAux (c :: cur) rest

/-- Python `str.split()` with no argument: split on whitespace runs and
drop empty pieces. -/
def pySplitWs (s : String) : List String := wsSplitAux [] s.data

/-- Is `needle` a contiguous leading piece of `hay`? -/
def leadingMatch : List Char → List Char → Bool
  | [], _ => true
  | _ :: _, [] => false
  | a :: as, b :: bs => a = b && leadingMatch as bs

/-- Python `needle in hay` substring test, on char lists. -/
def subOccurs : List Char → List Char → Bool
  | needle, [] => needle.isEmpty
  | needle, hay =>
    match hay with
    | [] => needle.isEmpty
    | _ :: rest => leadingMatch needle hay || subOccurs needle rest

/-- Python `needle in hay` substring test, on strings. -/
def strContains (hay needle : String) : Bool := subOccurs needle.data hay.data

/-- Python `s.startswith(p)`. -/
def pyStartsW (s p : String) : Bool := leadingMatch p.data s.data

/-- Python `s.endswith(p)`. -/
def pyEndsW (s p : String) : Bool := leadingMatch p.data.reverse s.data.reverse

/-- Helper for `pySplitDot`: accumulates the current piece (reversed). -/
def splitDotAux : List Char → List Char → List String
  | cur, [] => [String.mk cur.reverse]
  | cur, c :: rest =>
    if c = '.' then String.mk cur.reverse :: splitDotAux [] rest
    else splitDotAux (c :: cur) rest

/-- Python `text.split('.')`: split on every dot, keeping empty pieces
(so the empty string yields `[""]`). -/
def pySplitDot (s : String) : List String := splitDotAux [] s.data

/-! ### src/similarity/detector.py -/

/-- Round-half-to-even of a rational to an integer (the rounding rule of
Python's `round`). -/
def roundHalfEven (q : ℚ) : ℤ :=
  let f := ⌊q⌋
  let r := q - f
  if r < 1/2 then f else if 1/2 < r then f + 1 else if f % 2 = 0 then f else f + 1

/-- Python `round(q, 3)`: round to 3 decimal places (half-to-even). -/
def round3 (q : ℚ) : ℚ := (roundHalfEven (q * 1000) : ℚ) / 1000

/-- `detector.is_match`: the two sub-scores (semantic cosine similarity and
fuzzy token-set ratio) come from external libraries and are modelled as the
rational inputs `semantic` and `fuzzy`.  The function averages them and
returns `(score >= threshold, round(score, 3))`. -/
def is_match (semantic fuzzy threshold : ℚ) : Bool × ℚ :=
  let score := (semantic + fuzzy) / 2
  (decide (threshold ≤ score), round3 score)

/-! ### scripts/detect_reuse_anomalies.py -/

/-- One element of a ReuseGroup's `sources` list (shape produced by
`scripts/trace_content_reuse.py`). -/
structure SourceItem where
  domain : String
  url : String
  label : String
  crawl_file : String
  snippet : String
deriving DecidableEq

/-- A reuse-map entry value: `{representative_snippet, sources}`. -/
structure ReuseGroup where
  representative_snippet : String
  sources : List SourceItem
deriving DecidableEq

/-- An anomaly record `{content_hash, reused_on, issue}`. -/
structure Anomaly where
  content_hash : String
  reused_on : List (String × String)
  issue : String
deriving DecidableEq

/-- `domain_labels.get(domain, "unclassified")`. -/
def labelOf (domain_labels : String → Option String) (d : String) : String :=
  (domain_labels d).getD "unclassified"

/-- Key list of the `label_groups` defaultdict: labels in first-occurrence
order over the sources. -/
def labelKeysAux (dl : String → Option String) (acc : List String) :
    List SourceItem → List String
  | [] => acc
  | it :: rest =>
    let l := labelOf dl it.domain
    labelKeysAux dl (if l ∈ acc then acc else acc ++ [l]) rest

/-- `labels_used = list(label_groups.keys())`. -/
def labels_used (dl : String → Option String) (sources : List SourceItem) : List String :=
  labelKeysAux dl [] sources

/-- The per-group rule cascade of `detect_anomalies` (body of its loop). -/
def classifyGroup (dl : String → Option String) (content_hash : String)
    (g : ReuseGroup) : Option Anomaly :=
  let sources := g.sources
  let lu := labels_used dl sources
  let reused_on := sources.map (fun it => (it.domain, labelOf dl it.domain))
  if 2 ≤ sources.length then some ⟨content_hash, reused_on, "High frequency reuse"⟩
  else if 2 ≤ lu.length then some ⟨content_hash, reused_on, "Cross-ideological reuse"⟩
  else if (∀ it ∈ sources, labelOf dl it.domain = "unclassified") ∧ 3 ≤ sources.length then
    some ⟨content_hash, reused_on, "Unclassified cluster reuse"⟩
  else none

/-- `detect_anomalies(reuse_map, domain_labels)`: the reuse map is modelled
as an association list in insertion order. -/
def detect_anomalies (reuse_map : List (String × ReuseGroup))
    (dl : String → Option String) : List Anomaly :=
  reuse_map.filterMap (fun hg => classifyGroup dl hg.1 hg.2)

/-! ### SHA-256 (hashlib.sha256, FIPS 180-4)

Bytes and 32-bit words are modelled as `Nat` with explicit reduction
modulo `2 ^ 32`. -/

/-- Reduce to a 32-bit word. -/
def m32 (x : Nat) : Nat := x % 4294967296

/-- Rotate a 32-bit word right by `n` bits. -/
def rotr32 (n x : Nat) : Nat := m32 (x / 2 ^ n + x % 2 ^ n * 2 ^ (32 - n))

/-- Bitwise complement of a 32-bit word. -/
def not32 (x : Nat) : Nat := x ^^^ 4294967295

def sigBig0 (x : Nat) : Nat := rotr32 2 x ^^^ rotr32 13 x ^^^ rotr32 22 x
def sigBig1 (x : Nat) : Nat := rotr32 6 x ^^^ rotr32 11 x ^^^ rotr32 25 x
def sigSml0 (x : Nat) : Nat := rotr32 7 x ^^^ rotr32 18 x ^^^ x / 2 ^ 3
def sigSml1 (x : Nat) : Nat := rotr32 17 x ^^^ rotr32 19 x ^^^ x / 2 ^ 10

def chFn (x y z : Nat) : Nat := (x &&& y) ^^^ (not32 x &&& z)
def majFn (x y z : Nat) : Nat := (x &&& y) ^^^ (x &&& z) ^^^ (y &&& z)

/-- The 64 SHA-256 round constants (decimal). -/
def sha256K : List Nat :=
  [1116352408, 1899447441, 3049323471, 3921009573,
   961987163, 1508970993, 2453635748, 2870763221,
   3624381080, 310598401, 607225278, 1426881987,
   1925078388, 2162078206, 2614888103, 3248222580,
   3835390401, 4022224774, 264347078, 604807628,
   770255983, 1249150122, 1555081692, 1996064986,
   2554220882, 2821834349, 2952996808, 3210313671,
   3336571891, 3584528711, 113926993, 338241895,
   666307205, 773529912, 1294757372, 1396182291,
   1695183700, 1986661051, 2177026350, 2456956037,
   2730485921, 2820302411, 3259730800, 3345764771,
   3516065817, 3600352804, 4094571909, 275423344,
   430227734, 506948616, 659060556, 883997877,
   958139571, 1322822218, 1537002063, 1747873779,
   1955562222, 2024104815, 2227730452, 2361852424,
   2428436474, 2756734187, 3204031479, 3329325298]

/-- Working state of the compression function. -/
structure Sha256State where
  a : Nat
  b : Nat
  c : Nat
  d : Nat
  e : Nat
  f : Nat
  g : Nat
  h : Nat

/-- The initial hash value H0 (decimal). -/
def sha256H0 : Sha256State :=
  ⟨1779033703, 3144134277, 1013904242, 2773480762,
   1359893119, 2600822924, 528734635, 1541459225⟩

/-- Big-endian 8-byte encoding of the bit length. -/
def lenBytes64 (n : Nat) : List Nat :=
  (List.range 8).map (fun i => n / 2 ^ (8 * (7 - i)) % 256)

/-- SHA-256 padding: append `0x80`, zero bytes, and the 64-bit bit length so
the total length is a multiple of 64 bytes. -/
def sha256Pad (msg : List Nat) : List Nat :=
  msg ++ [128] ++ List.replicate ((64 - (msg.length + 9) % 64) % 64) 0
      ++ lenBytes64 (8 * msg.length)

/-- Split a byte list into 64-byte blocks. -/
def chunks64 (l : List Nat) : List (List Nat) :=
  if l.isEmpty then [] else l.take 64 :: chunks64 (l.drop 64)
termination_by l.length
decreasing_by
  have hl : 0 < l.length := by
    cases l with
    | nil => simp_all
    | cons x xs => simp
  simp only [List.length_drop]
  omega

/-- The 16 initial 32-bit message-schedule words of one block (big-endian). -/
def blockWords (b : List Nat) : List Nat :=
  (List.range 16).map (fun i =>
    b.getD (4 * i) 0 * 16777216 + b.getD (4 * i + 1) 0 * 65536 +
      b.getD (4 * i + 2) 0 * 256 + b.getD (4 * i + 3) 0)

/-- Extend the message schedule by `n` further words. -/
def schedExt (w : List Nat) : Nat → List Nat
  | 0 => w
  | n + 1 =>
    schedExt
      (w ++ [m32 (sigSml1 (w.getD (w.length - 2) 0) + w.getD (w.length - 7) 0 +
        sigSml0 (w.getD (w.length - 15) 0) + w.getD (w.length - 16) 0)]) n

/-- One round of the SHA-256 compression function. -/
def sha256Round (s : Sha256State) (ki wi : Nat) : Sha256State :=
  let t1 := m32 (s.h + sigBig1 s.e + chFn s.e s.f s.g + ki + wi)
  let t2 := m32 (sigBig0 s.a + majFn s.a s.b s.c)
  ⟨m32 (t1 + t2), s.a, s.b, s.c, m32 (s.d + t1), s.e, s.f, s.g⟩

/-- Process one 64-byte block. -/
def sha256Compress (hv : Sha256State) (block : List Nat) : Sha256State :=
  let w := schedExt (blockWords block) 48
  let s := (sha256K.zip w).foldl (fun st p => sha256Round st p.1 p.2) hv
  ⟨m32 (hv.a + s.a), m32 (hv.b + s.b), m32 (hv.c + s.c), m32 (hv.d + s.d),
   m32 (hv.e + s.e), m32 (hv.f + s.f), m32 (hv.g + s.g), m32 (hv.h + s.h)⟩

/-- SHA-256 of a byte list, as the list of eight 32-bit hash words. -/
def sha256Words (msg : List Nat) : List Nat :=
  let fin := (chunks64 (sha256Pad msg)).foldl sha256Compress sha256H0
  [fin.a, fin.b, fin.c, fin.d, fin.e, fin.f, fin.g, fin.h]

/-- Lowercase hex digit. -/
def hexDigit (n : Nat) : Char :=
  if n < 10 then Char.ofNat (48 + n) else Char.ofNat (87 + n)

/-- Eight lowercase hex digits of a 32-bit word. -/
def word8Hex (w : Nat) : List Char :=
  (List.range 8).map (fun i => hexDigit (w / 2 ^ (4 * (7 - i)) % 16))

/-- `hashlib.sha256(bytes).hexdigest()`. -/
def sha256Hex (msg : List Nat) : String :=
  String.mk (List.flatten ((sha256Words msg).map word8Hex))

/-! ### scripts/trace_content_reuse.py -/

/-- UTF-8 encoding of one character, as byte values. -/
def utf8CharBytes (c : Char) : List Nat :=
  let n := c.toNat
  if n < 128 then [n]
  else if n < 2048 then [192 + n / 64, 128 + n % 64]
  else if n < 65536 then [224 + n / 4096, 128 + n / 64 % 64, 128 + n % 64]
  else [240 + n / 262144, 128 + n / 4096 % 64, 128 + n / 64 % 64, 128 + n % 64]

/-- Python `text.encode("utf-8")`, as byte values. -/
def utf8Bytes (s : String) : List Nat := List.flatten (s.data.map utf8CharBytes)

/-- Python slicing `text[:n]` (by code points). -/
def pyTake (s : String) (n : Nat) : String := ⟨s.data.take n⟩

/-- `ContentReuseAnalyzer.generate_content_hash`:
`hashlib.sha256(text[:1000].encode("utf-8")).hexdigest()`. -/
def generate_content_hash (text : String) : String :=
  sha256Hex (utf8Bytes (pyTake text 1000))

/-! ### src/crawler/search_engines.py -/

/-- `dropWhile` never lengthens a list (used for termination bounds). -/
theorem dropWhileLenLe {α : Type} (p : α → Bool) (l : List α) :
    (l.dropWhile p).length ≤ l.length := by
  induction l with
  | nil => simp
  | cons x xs ih =>
    by_cases h : p x
    · simp [List.dropWhile_cons, h]; omega
    · simp [List.dropWhile_cons, h]

/-- Stopword set `STOP`. -/
def STOP : List String :=
  ["the", "a", "an", "and", "or", "but", "to", "of", "in", "on", "for", "with",
   "as", "by", "is", "are", "was", "were", "be", "been", "being", "that",
   "this", "it", "its", "at", "from", "about", "into", "over", "after",
   "before", "between", "through", "their", "has", "have", "had", "today",
   "yesterday", "tomorrow", "new", "more"]

/-- Acronym allow list. -/
def ACRONYM_ALLOW : List String := ["NATO", "UAE", "EU", "US", "UK", "UN"]

/-- `_normalize_text`: curly quotes to ASCII-ish form, NBSP to space, strip. -/
def _normalize_text (s : String) : String :=
  pyStrip ⟨s.data.map (fun c =>
    if c = '’' then '\''
    else if c = '“' then '"'
    else if c = '”' then '"'
    else if c = '\xA0' then ' '
    else c)⟩

/-- Character class `[A-Za-z0-9\-]` of the token regex. -/
def isTokChar (c : Char) : Bool := c.isAlphanum || c = '-'

/-- `re.findall(r"[A-Za-z0-9][A-Za-z0-9\-]{1,}", s)`: maximal runs of at
least two characters starting with an alphanumeric. -/
def findTokens : List Char → List String
  | [] => []
  | c :: rest =>
    if c.isAlphanum then
      let body := rest.takeWhile isTokChar
      if body.isEmpty then findTokens rest
      else String.mk (c :: body) :: findTokens (rest.dropWhile isTokChar)
    else findTokens rest
termination_by l => l.length
decreasing_by
  · simp
  · have := dropWhileLenLe isTokChar rest
    simp
    omega
  · simp

/-- The filtering loop of `_tokens`: drop stopwords, drop short tokens not in
the acronym allow list, and deduplicate case-insensitively (`seen` holds the
lowered forms already emitted). -/
def tokensFilter : List String → List String → List String
  | [], _ => []
  | t :: ts, seen =>
    let tl := pyLower t
    if STOP.contains tl then tokensFilter ts seen
    else if t.length < 3 && !(ACRONYM_ALLOW.contains (pyUpper t)) then
      tokensFilter ts seen
    else if seen.contains tl then tokensFilter ts seen
    else t :: tokensFilter ts (tl :: seen)

/-- `_tokens(sentence)`. -/
def _tokens (sentence : String) : List String :=
  tokensFilter (findTokens (_normalize_text sentence).data) []

/-- `_quote(words)`. -/
def _quote (words : List String) : String :=
  "\"" ++ String.intercalate " " words ++ "\""

/-- Python `str.isupper()` (ASCII): at least one cased character and no
lowercase cased character. -/
def pyIsUpper (t : String) : Bool :=
  t.data.any Char.isAlpha && t.data.all (fun c => !c.isAlpha || c.isUpper)

/-- The final dedup/cleanup loop of `build_gdelt_queries`: normalize each
variant's whitespace, drop empties and duplicates. -/
def variantsDedup : List String → List String → List String
  | [], _ => []
  | q :: qs, seen =>
    let qn := String.intercalate " " (pySplitWs q)
    if qn ≠ "" ∧ qn ∉ seen then qn :: variantsDedup qs (qn :: seen)
    else variantsDedup qs seen

/-- `build_gdelt_queries(sentence, exclude_domain=...)` with the default
configuration (`near_k = 10`, `max_terms = 8`, `sourcelang = "english"`), as
called by `search_gdelt_variants`; `exclude_domain` is read but unused in the
source (its branch is `pass`). -/
def build_gdelt_queries (sentence : String) : List String :=
  let max_terms := 8
  let terms := (_tokens sentence).take max_terms
  if terms.isEmpty then []
  else
    let named := terms.filter (fun t => (t.data.headD ' ').isUpper || pyIsUpper t)
    let others := terms.filter (fun t => !(named.contains t))
    let core := (named ++ others).take max_terms
    let head := core.take 3
    let tail := ((core.drop 3).filter (fun t => decide (3 ≤ t.length))).take 3
    let filters := ["sourcelang:english"]
    let v1 := if !head.isEmpty then
        [pyStrip ("near10:" ++ _quote head ++ " " ++
          String.intercalate " " (tail ++ filters))]
      else []
    let v2 := if 2 ≤ head.length then
        [pyStrip (_quote (head.take 2) ++ " " ++
          String.intercalate " " (tail.take 2 ++ filters))]
      else []
    let v3 := [pyStrip (String.intercalate " "
        (core.filter (fun t => decide (3 ≤ t.length)) ++ filters))]
    variantsDedup (v1 ++ v2 ++ v3) []

/-- Regex `\w` (ASCII). -/
def isWordChar (c : Char) : Bool := c.isAlphanum || c = '_'

/-- Tail of `near\d+:"[^"]+"\s*` after the literal `near`: matches
`:"body"` plus trailing whitespace, returning the remainder. -/
def matchNearColon : List Char → Option (List Char)
  | ':' :: '"' :: rest2 =>
    if (rest2.takeWhile (fun c => c ≠ '"')).isEmpty then none
    else
      match rest2.dropWhile (fun c => c ≠ '"') with
      | '"' :: rest3 => some (rest3.dropWhile pySpace)
      | _ => none
  | _ => none

/-- Try to match `near\d+:"[^"]+"\s*` at the head of the list, returning the
remainder after the match. -/
def matchNearAt : List Char → Option (List Char)
  | 'n' :: 'e' :: 'a' :: 'r' :: rest =>
    if (rest.takeWhile Char.isDigit).isEmpty then none
    else matchNearColon (rest.dropWhile Char.isDigit)
  | _ => none

theorem matchNearColon_length : ∀ {l rem : List Char},
    matchNearColon l = some rem → rem.length < l.length := by
  intro l rem h
  unfold matchNearColon at h
  split at h
  · rename_i rest2
    split at h
    · exact absurd h (by simp)
    · split at h
      · rename_i rest3 heq
        injection h with h
        subst h
        have h1 := dropWhileLenLe pySpace rest3
        have h2 := dropWhileLenLe (fun c => c ≠ '"') rest2
        rw [heq] at h2
        simp at h2 ⊢
        omega
      · exact absurd h (by simp)
  · exact absurd h (by simp)

theorem matchNearAt_length : ∀ {l rem : List Char},
    matchNearAt l = some rem → rem.length < l.length := by
  intro l rem h
  unfold matchNearAt at h
  split at h
  · rename_i rest
    split at h
    · exact absurd h (by simp)
    · have h1 := matchNearColon_length h
      have h2 := dropWhileLenLe Char.isDigit rest
      simp
      omega
  · exact absurd h (by simp)

/-- Scanner for `re.sub(r'\bnear\d+:"[^"]+"\s*', '', q)`: walk the string,
tracking whether the previous character is a word character (for `\b`), and
drop every match. -/
def nearSubAux : Bool → List Char → List Char
  | _, [] => []
  | prevWord, c :: rest =>
    if prevWord then c :: nearSubAux (isWordChar c) rest
    else
      match h : matchNearAt (c :: rest) with
      | some rem => nearSubAux false rem
      | none => c :: nearSubAux (isWordChar c) rest
termination_by _ l => l.length
decreasing_by
  · simp
  · exact matchNearAt_length h
  · simp

/-- `re.sub(r'\bnear\d+:"[^"]+"\s*', '', q)`. -/
def reSubNearClause (q : String) : String := ⟨nearSubAux false q.data⟩

/-- `_retry_fix_query(q, head_text)`. -/
def _retry_fix_query (q head_text : String) : Option String :=
  let msg := pyLower head_text
  if strContains msg "invalid near" || strContains msg "near search" then
    let q2 := pyStrip (reSubNearClause q)
    if q2 = "" then none else some q2
  else if strContains msg "too short" then
    let toks := (pySplitWs q).filter
      (fun t => (pyStartsW t "\"" && pyEndsW t "\"") || decide (3 ≤ t.length))
    let q2 := pyStrip (String.intercalate " " toks)
    if q2 = "" then none else some q2
  else if strContains msg "illegal character" &&
      !(pyStartsW q "\"" && pyEndsW q "\"") then
    some ("\"" ++ q ++ "\"")
  else none

/-- A Python `datetime` value (fields as `datetime` guarantees them:
`1 <= year <= 9999`, etc.). -/
structure PyDateTime where
  year : Nat
  month : Nat
  day : Nat
  hour : Nat
  minute : Nat
  second : Nat

/-- Zero-padded decimal digit. -/
def decDigit (n : Nat) : Char := Char.ofNat (48 + n % 10)

/-- `dtobj.strftime("%Y%m%d%H%M%S")`: fixed-width zero-padded fields
(faithful on the `datetime` value ranges). -/
def strftimeYmdHms (d : PyDateTime) : String :=
  ⟨[decDigit (d.year / 1000), decDigit (d.year / 100), decDigit (d.year / 10),
    decDigit d.year, decDigit (d.month / 10), decDigit d.month,
    decDigit (d.day / 10), decDigit d.day, decDigit (d.hour / 10),
    decDigit d.hour, decDigit (d.minute / 10), decDigit d.minute,
    decDigit (d.second / 10), decDigit d.second]⟩

/-- Argument of `_gdelt_fmt`: a `datetime` or a string. -/
inductive GdeltDateInput where
  | ofDt (d : PyDateTime)
  | ofStr (s : String)

/-- `re.fullmatch(r"\d{n}", s)` (ASCII digits). -/
def isDigitsLen (n : Nat) (s : String) : Bool :=
  s.length == n && s.data.all Char.isDigit

/-- `re.fullmatch(r"\d{4}-\d{2}-\d{2}", s)`. -/
def isIsoDate (s : String) : Bool :=
  match s.data with
  | [a, b, c, d, e, f, g, h, i, j] =>
    a.isDigit && b.isDigit && c.isDigit && d.isDigit && e = '-' &&
      f.isDigit && g.isDigit && h = '-' && i.isDigit && j.isDigit
  | _ => false

/-- Python `s.replace("-", "")`: remove every dash. -/
def removeDashes (s : String) : String := ⟨s.data.filter (fun c => c ≠ '-')⟩

/-- `_gdelt_fmt(dtobj)`: raising `ValueError` is modelled as `Except.error`
carrying the offending input. -/
def _gdelt_fmt : GdeltDateInput → Except String String
  | .ofDt d => .ok (strftimeYmdHms d)
  | .ofStr s0 =>
    let s := pyStrip s0
    if isDigitsLen 14 s then .ok s
    else if isDigitsLen 8 s then .ok (s ++ "000000")
    else if isIsoDate s then .ok (removeDashes s ++ "000000")
    else .error ("Unsupported datetime format for GDELT: " ++ s0)

/-- One HTTP exchange with the GDELT DOC API, as `search_gdelt_single`
observes it: a JSON article list (each article's `url` field, possibly
absent), a non-JSON body, or a transport failure. -/
inductive GdeltHttp where
  | json (articleUrls : List (Option String))
  | nonJson (body : String)
  | fail

/-- `r.text[:240].replace("\n", " ")`. -/
def headSnippet (body : String) : String :=
  ⟨(body.data.take 240).map (fun c => if c = '\n' then ' ' else c)⟩

/-- `search_gdelt_single(query, ...)` with the sequence of HTTP responses the
network returns made an explicit input (one response consumed per request
issued; an exhausted list is treated as a transport failure).  The second
component counts the retries issued (recursive self-calls with a rewritten
query); the source returns only the URL list. -/
def search_gdelt_single : String → List GdeltHttp → List String × Nat
  | _, [] => ([], 0)
  | q, resp :: rest =>
    match resp with
    | .fail => ([], 0)
    | .json arts =>
      (arts.filterMap (fun o => o.bind (fun u => if u = "" then none else some u)), 0)
    | .nonJson body =>
      match _retry_fix_query q (headSnippet body) with
      | some fixed =>
        if fixed ≠ q then
          let r := search_gdelt_single fixed rest
          (r.1, r.2 + 1)
        else ([], 0)
      | none => ([], 0)

/-- Is a response the non-JSON (error page) case? -/
def isNonJsonResp : GdeltHttp → Bool
  | .nonJson _ => true
  | _ => false

/-- Number of non-JSON responses in a response sequence. -/
def countNonJson (rs : List GdeltHttp) : Nat := (rs.filter isNonJsonResp).length

/-- `str(max(1, min(max_results, 250)))` of `search_gdelt_single`'s params:
the clamped numeric value. -/
def maxrecordsVal (max_results : Int) : Int := max 1 (min max_results 250)

/-- The `"maxrecords"` request parameter string. -/
def maxrecordsParam (max_results : Int) : String := toString (maxrecordsVal max_results)

/-- Inner loop of `search_gdelt_variants` over one variant's hits; the third
component records whether the `return urls` inside the loop fired. -/
def gdeltInner (limit : Nat) :
    List String → List String → List String → List String × List String × Bool
  | urls, seen, [] => (urls, seen, false)
  | urls, seen, u :: hits =>
    let st := if u ≠ "" ∧ u ∉ seen then (urls ++ [u], u :: seen) else (urls, seen)
    if limit ≤ st.1.length then (st.1, st.2, true)
    else gdeltInner limit st.1 st.2 hits

/-- Outer loop of `search_gdelt_variants` over the query variants; `results`
models `search_gdelt_single`'s URL list per issued query. -/
def gdeltOuter (results : String → List String) (limit : Nat) :
    List String → List String → List String → List String
  | urls, _, [] => urls
  | urls, seen, qv :: qs =>
    match gdeltInner limit urls seen (results qv) with
    | (urls2, _, true) => urls2
    | (urls2, seen2, false) => gdeltOuter results limit urls2 seen2 qs

/-- `search_gdelt_variants(sentence, ..., limit=limit)`. -/
def search_gdelt_variants (results : String → List String) (sentence : String)
    (limit : Nat) : List String :=
  gdeltOuter results limit [] [] (build_gdelt_queries sentence)

/-! ### src/crawler/echo_spider.py -/

/-- The five quote replacements applied to each kept sentence in
`get_top_sentences` (straight/curly double quotes removed, curly single
quotes to apostrophes). -/
def replaceQuotes (s : String) : String :=
  ⟨s.data.filterMap (fun c =>
    if c = '"' || c = '“' || c = '”' then none
    else if c = '’' || c = '‘' then some '\'' else some c)⟩

/-- `get_top_sentences(text, n, max_words)`. -/
def get_top_sentences (text : String) (n max_words : Nat) : List String :=
  let sentences := (pySplitDot text).filterMap (fun s =>
    let t := pyStrip s
    if 25 < t.length then some t else none)
  (sentences.take n).map (fun s =>
    let s2 := replaceQuotes s
    let words := pySplitWs s2
    let snippet := if max_words < words.length then
        String.intercalate " " (words.take max_words)
      else String.intercalate " " words
    "\"" ++ snippet ++ "\"")

/-! ### Specification-side formulations

Independent restatements of behaviors claimed by the specification, used to
compare the code-derived definitions against. -/

/-- First-seen-order deduplication of a URL stream, skipping empty URLs and
anything already in `seen`. -/
def firstSeenDedup (seen : List String) : List String → List String
  | [] => []
  | u :: rest =>
    if u ≠ "" ∧ u ∉ seen then u :: firstSeenDedup (u :: seen) rest
    else firstSeenDedup seen rest

/-- Processing of the concatenated hit stream with the accumulation body of
`search_gdelt_variants`'s loops (intermediate form relating the two nested
loops to `firstSeenDedup`). -/
def streamCollect (limit : Nat) : List String → List String → List String → List String
  | urls, _, [] => urls
  | urls, seen, u :: stream =>
    let st := if u ≠ "" ∧ u ∉ seen then (urls ++ [u], u :: seen) else (urls, seen)
    if limit ≤ st.1.length then st.1
    else streamCollect limit st.1 st.2 stream

/-! ## Claim theorems -/

/-- C10: for every integer `max_results` passed to `search_gdelt_single`
(including zero, negative values, and values above 250) the `"maxrecords"`
request parameter is the decimal string of `max(1, min(max_results, 250))`,
a value that always lies in `[1, 250]`. -/
theorem c10_maxrecords_clamped (m : Int) :
    1 ≤ maxrecordsVal m ∧ maxrecordsVal m ≤ 250 ∧
      maxrecordsParam m = toString (maxrecordsVal m) := by
  refine ⟨?_, ?_, rfl⟩ <;> (unfold maxrecordsVal; omega)

/-- C9: `is_match` decides the match on the unrounded average but returns the
rounded score, so near the threshold the returned boolean and the returned
score can disagree: with sub-scores 0.8008 and 0.8 and threshold 0.8002 the
result is `true` yet the rounded score 0.800 is below the threshold, and with
sub-scores 0.7992 and 0.8 and threshold 0.7997 the result is `false` yet the
rounded score 0.800 is at or above the threshold. -/
theorem c9_rounded_score_mismatch :
    (is_match (8008/10000) (8/10) (8002/10000)).1 = true ∧
      (is_match (8008/10000) (8/10) (8002/10000)).2 < 8002/10000 ∧
      (is_match (7992/10000) (8/10) (7997/10000)).1 = false ∧
      7997/10000 ≤ (is_match (7992/10000) (8/10) (7997/10000)).2 := by
  have e1 : round3 (((8008 : ℚ)/10000 + 8/10)/2) = 800/1000 := by
    unfold round3 roundHalfEven
    norm_num
  have e2 : round3 (((7992 : ℚ)/10000 + 8/10)/2) = 800/1000 := by
    unfold round3 roundHalfEven
    norm_num
  refine ⟨?_, ?_, ?_, ?_⟩
  · simp only [is_match, decide_eq_true_eq]
    norm_num
  · simp only [is_match]
    rw [e1]; norm_num
  · simp only [is_match, decide_eq_false_iff_not]
    norm_num
  · simp only [is_match]
    rw [e2]; norm_num

/-- C3: `is_match` returns the pair of the comparison `score >= threshold`
(computed on the unrounded arithmetic mean of the two sub-scores) and the
mean rounded to 3 decimals; a match is produced iff the mean is at least the
threshold, the boundary case counting as a match. -/
theorem c3_is_match_iff (semantic fuzzy threshold : ℚ)
    (h0 : 0 ≤ threshold) (h1 : threshold ≤ 1) :
    ((is_match semantic fuzzy threshold).1 = true ↔
        threshold ≤ (semantic + fuzzy) / 2) ∧
      (is_match semantic fuzzy threshold).2 = round3 ((semantic + fuzzy) / 2) ∧
      ((semantic + fuzzy) / 2 = threshold →
        (is_match semantic fuzzy threshold).1 = true) := by
  unfold is_match
  refine ⟨by simp, rfl, fun h => by simp [h.ge]⟩

/-- Witness for C3 at concrete sub-scores 1 and 1/2 with threshold 3/4. -/
theorem c3_is_match_iff_witness :
    ((is_match 1 (1/2) (3/4)).1 = true ↔ (3/4 : ℚ) ≤ (1 + 1/2) / 2) ∧
      (is_match 1 (1/2) (3/4)).2 = round3 ((1 + 1/2) / 2) ∧
      ((1 + 1/2 : ℚ) / 2 = 3/4 → (is_match 1 (1/2) (3/4)).1 = true) :=
  c3_is_match_iff 1 (1/2) (3/4) (by norm_num) (by norm_num)

/-- C6: the content fingerprint depends only on the first 1000 characters of
the text, and equals the SHA-256 hex digest of the UTF-8 encoding of that
prefix (determinism is immediate: `generate_content_hash` is a pure
function). -/
theorem c6_hash_prefix_only (t1 t2 : String)
    (h : pyTake t1 1000 = pyTake t2 1000) :
    generate_content_hash t1 = generate_content_hash t2 ∧
      generate_content_hash t1 = sha256Hex (utf8Bytes (pyTake t1 1000)) :=
  ⟨by unfold generate_content_hash; rw [h], rfl⟩

/-- Witness for C6: two 1001-character texts that agree on their first 1000
characters but differ at the end have the same fingerprint. -/
theorem c6_hash_prefix_only_witness :
    generate_content_hash ⟨List.replicate 1001 'a'⟩ =
        generate_content_hash ⟨List.replicate 1000 'a' ++ ['b']⟩ ∧
      generate_content_hash ⟨List.replicate 1001 'a'⟩ =
        sha256Hex (utf8Bytes (pyTake ⟨List.replicate 1001 'a'⟩ 1000)) :=
  c6_hash_prefix_only _ _ (by
    unfold pyTake
    have hmin : min 1000 1001 = 1000 := by omega
    have h1 : (List.replicate 1001 'a').take 1000 = List.replicate 1000 'a' := by
      rw [List.take_replicate, hmin]
    have hlen : (List.replicate 1000 'a').length = 1000 := List.length_replicate 1000 'a'
    have h2 := List.take_left (List.replicate 1000 'a') ['b']
    rw [hlen] at h2
    rw [h1, h2])

/-- The key list of `label_groups` never contains duplicates. -/
theorem labelKeysAux_nodup (dl : String → Option String) :
    ∀ (ss : List SourceItem) (acc : List String), acc.Nodup →
      (labelKeysAux dl acc ss).Nodup := by
  intro ss
  induction ss with
  | nil => intro acc h; exact h
  | cons it rest ih =>
    intro acc h
    simp only [labelKeysAux]
    apply ih
    split
    · exact h
    · rename_i hl
      refine List.Nodup.append h (List.nodup_singleton _) ?_
      intro x hx hx'
      simp at hx'
      subst hx'
      exact hl hx

/-- The key list of `label_groups` collects exactly the labels of the
sources. -/
theorem labelKeysAux_toFinset (dl : String → Option String) :
    ∀ (ss : List SourceItem) (acc : List String),
      (labelKeysAux dl acc ss).toFinset =
        acc.toFinset ∪ (ss.map (fun it => labelOf dl it.domain)).toFinset := by
  intro ss
  induction ss with
  | nil => intro acc; simp [labelKeysAux]
  | cons it rest ih =>
    intro acc
    simp only [labelKeysAux, List.map_cons, List.toFinset_cons]
    rw [ih]
    split
    · rename_i hl
      ext x
      simp only [Finset.mem_union, List.mem_toFinset, Finset.mem_insert]
      constructor
      · rintro (hx | hx)
        · exact Or.inl hx
        · exact Or.inr (Or.inr hx)
      · rintro (hx | hx | hx)
        · exact Or.inl hx
        · subst hx; exact Or.inl hl
        · exact Or.inr hx
    · ext x
      simp only [List.toFinset_append, Finset.union_assoc, Finset.mem_union,
        List.mem_toFinset, List.mem_singleton, Finset.mem_insert]

/-- `len(labels_used)` equals the number of distinct labels among the
group's sources. -/
theorem labels_used_length (dl : String → Option String) (ss : List SourceItem) :
    (labels_used dl ss).length =
      (ss.map (fun it => labelOf dl it.domain)).toFinset.card := by
  have hnd : (labels_used dl ss).Nodup := labelKeysAux_nodup dl ss [] List.nodup_nil
  have hfs : (labels_used dl ss).toFinset =
      (ss.map (fun it => labelOf dl it.domain)).toFinset := by
    have h := labelKeysAux_toFinset dl ss []
    simpa [labels_used] using h
  rw [← List.toFinset_card_of_nodup hnd, hfs]

/-- C2: `detect_anomalies` never emits an anomaly with issue
"Unclassified cluster reuse" (rule 3 is unreachable, because its guard needs
at least 3 sources while rule 1 already catches 2 or more); in particular a
group of three sources on three distinct domains, all unlabeled, is
classified "High frequency reuse". -/
theorem c2_unclassified_rule_unreachable :
    (∀ (m : List (String × ReuseGroup)) (dl : String → Option String) (a : Anomaly),
        a ∈ detect_anomalies m dl → a.issue ≠ "Unclassified cluster reuse") ∧
      detect_anomalies
          [("h", ⟨"s",
            [⟨"d1.com", "u1", "unclassified", "f", "s"⟩,
             ⟨"d2.com", "u2", "unclassified", "f", "s"⟩,
             ⟨"d3.com", "u3", "unclassified", "f", "s"⟩]⟩)]
          (fun _ => none) =
        [⟨"h",
          [("d1.com", "unclassified"), ("d2.com", "unclassified"),
           ("d3.com", "unclassified")], "High frequency reuse"⟩] := by
  constructor
  · intro m dl a ha
    unfold detect_anomalies at ha
    rw [List.mem_filterMap] at ha
    obtain ⟨hg, _, hcls⟩ := ha
    simp only [classifyGroup] at hcls
    split at hcls
    · injection hcls with h2
      subst h2
      simp
    · split at hcls
      · injection hcls with h2
        subst h2
        simp
      · split at hcls
        · rename_i hlen _ hrule3
          exact absurd hrule3.2 (by omega)
        · exact absurd hcls (by simp)
  · decide

/-- Witness for C2: the "High frequency reuse" anomaly emitted for the
three-unlabeled-domain scenario indeed does not carry the unreachable
issue. -/
theorem c2_unclassified_rule_unreachable_witness :
    (⟨"h",
      [("d1.com", "unclassified"), ("d2.com", "unclassified"),
       ("d3.com", "unclassified")], "High frequency reuse"⟩ : Anomaly).issue ≠
      "Unclassified cluster reuse" :=
  c2_unclassified_rule_unreachable.1
    [("h", ⟨"s",
      [⟨"d1.com", "u1", "unclassified", "f", "s"⟩,
       ⟨"d2.com", "u2", "unclassified", "f", "s"⟩,
       ⟨"d3.com", "u3", "unclassified", "f", "s"⟩]⟩)]
    (fun _ => none) _ (by decide)

/-- C4: `detect_anomalies` resolves each domain's label with default
"unclassified", applies the three rules in fixed priority (first match wins)
and emits at most one anomaly per group: "High frequency reuse" for 2 or
more sources; otherwise "Cross-ideological reuse" for 2 or more distinct
labels; otherwise "Unclassified cluster reuse" for all-unclassified groups
of 3 or more sources; otherwise nothing. -/
theorem c4_rule_priority (dl : String → Option String) (hsh : String) (g : ReuseGroup) :
    (2 ≤ g.sources.length →
      classifyGroup dl hsh g = some ⟨hsh,
        g.sources.map (fun it => (it.domain, labelOf dl it.domain)),
        "High frequency reuse"⟩) ∧
    (g.sources.length < 2 →
      2 ≤ (g.sources.map (fun it => labelOf dl it.domain)).toFinset.card →
      classifyGroup dl hsh g = some ⟨hsh,
        g.sources.map (fun it => (it.domain, labelOf dl it.domain)),
        "Cross-ideological reuse"⟩) ∧
    (g.sources.length < 2 →
      (g.sources.map (fun it => labelOf dl it.domain)).toFinset.card < 2 →
      (∀ it ∈ g.sources, labelOf dl it.domain = "unclassified") →
      3 ≤ g.sources.length →
      classifyGroup dl hsh g = some ⟨hsh,
        g.sources.map (fun it => (it.domain, labelOf dl it.domain)),
        "Unclassified cluster reuse"⟩) ∧
    (g.sources.length < 2 →
      (g.sources.map (fun it => labelOf dl it.domain)).toFinset.card < 2 →
      ¬((∀ it ∈ g.sources, labelOf dl it.domain = "unclassified") ∧
        3 ≤ g.sources.length) →
      classifyGroup dl hsh g = none) := by
  refine ⟨?_, ?_, ?_, ?_⟩
  · intro h2
    simp only [classifyGroup]
    rw [if_pos h2]
  · intro hn hl
    simp only [classifyGroup]
    rw [if_neg (by omega), if_pos ((labels_used_length dl g.sources) ▸ hl)]
  · intro hn _ _ h3
    exact absurd h3 (by omega)
  · intro hn hc hnot
    have hlu : (labels_used dl g.sources).length < 2 := by
      rw [labels_used_length]; exact hc
    simp only [classifyGroup]
    rw [if_neg (by omega), if_neg (by omega), if_neg hnot]

/-- Witness for C4: a two-source group is classified "High frequency
reuse". -/
theorem c4_rule_priority_witness :
    classifyGroup (fun _ => none) "h"
        ⟨"s", [⟨"d1.com", "u1", "x", "f", "s"⟩, ⟨"d2.com", "u2", "x", "f", "s"⟩]⟩ =
      some ⟨"h", [("d1.com", "unclassified"), ("d2.com", "unclassified")],
        "High frequency reuse"⟩ :=
  (c4_rule_priority (fun _ => none) "h"
    ⟨"s", [⟨"d1.com", "u1", "x", "f", "s"⟩, ⟨"d2.com", "u2", "x", "f", "s"⟩]⟩).1
    (by decide)

/-- `dropWhile` is the identity when no element satisfies the predicate. -/
theorem dropWhile_eq_self_of_all {α : Type} (p : α → Bool) (l : List α)
    (h : ∀ c ∈ l, p c = false) : l.dropWhile p = l := by
  cases l with
  | nil => rfl
  | cons x xs => simp [List.dropWhile_cons, h x (by simp)]

/-- `str.strip()` is the identity on strings without boundary whitespace. -/
theorem pyStrip_eq_self {s : String} (h : ∀ c ∈ s.data, pySpace c = false) :
    pyStrip s = s := by
  unfold pyStrip
  rw [dropWhile_eq_self_of_all _ _ h,
    dropWhile_eq_self_of_all _ _ (fun c hc => h c (by simpa using hc)),
    List.reverse_reverse]

/-- Decimal digits are not Python whitespace. -/
theorem pySpace_of_digit {c : Char} (h : c.isDigit = true) : pySpace c = false := by
  by_contra hne
  rw [Bool.not_eq_false] at hne
  simp only [pySpace, Bool.or_eq_true, decide_eq_true_eq] at hne
  rcases hne with ((((h1 | h1) | h1) | h1) | h1) | h1 <;>
    (subst h1; exact absurd h (by decide))

/-- C8: whenever no dot-separated fragment of the input exceeds 25
characters after stripping (the empty text in particular), `get_top_sentences`
returns the empty list of query variants. -/
theorem c8_empty_on_all_short (text : String) (n max_words : Nat)
    (h : ∀ s ∈ pySplitDot text, (pyStrip s).length ≤ 25) :
    get_top_sentences text n max_words = [] := by
  simp only [get_top_sentences]
  have hnil : (pySplitDot text).filterMap (fun s =>
      let t := pyStrip s
      if 25 < t.length then some t else none) = [] := by
    rw [List.filterMap_eq_nil_iff]
    intro s hs
    have hl := h s hs
    simp only
    rw [if_neg (by omega)]
  rw [hnil]
  simp

/-- Witness for C8: the empty text yields no query variants. -/
theorem c8_empty_on_all_short_witness : get_top_sentences "" 5 20 = [] :=
  c8_empty_on_all_short "" 5 20 (by decide)

/-- A string matching the ISO-date regex has 10 characters, each a digit or
a dash. -/
theorem isoDate_chars {s : String} (h : isIsoDate s = true) :
    s.data.length = 10 ∧ ∀ c ∈ s.data, c.isDigit = true ∨ c = '-' := by
  unfold isIsoDate at h
  split at h
  · rename_i a b c' d e f g hh i j heq
    refine ⟨by rw [heq]; rfl, ?_⟩
    intro c hc
    rw [heq] at hc
    simp only [List.mem_cons, List.not_mem_nil, or_false] at hc
    simp only [Bool.and_eq_true, decide_eq_true_eq] at h
    rcases hc with rfl | rfl | rfl | rfl | rfl | rfl | rfl | rfl | rfl | rfl <;>
      simp_all
  · exact absurd h (by simp)

/-- ISO-date strings contain no whitespace. -/
theorem isoDate_no_space {s : String} (h : isIsoDate s = true) :
    ∀ c ∈ s.data, pySpace c = false := by
  intro c hc
  rcases (isoDate_chars h).2 c hc with hd | rfl
  · exact pySpace_of_digit hd
  · decide

/-- C5: `_gdelt_fmt` normalizes every accepted input to a 14-digit
timestamp — a datetime is formatted `YYYYMMDDHHMMSS`, a 14-digit string is
returned unchanged, an 8-digit date gets `"000000"` appended, an ISO date
has its dashes removed and `"000000"` appended (`"2024-03-01"` yields
`"20240301000000"`) — and every other shape is a `ValueError`
(`"not-a-date"` in particular). -/
theorem c5_gdelt_fmt_normalizes :
    (∀ d : PyDateTime, _gdelt_fmt (.ofDt d) = .ok (strftimeYmdHms d) ∧
        (strftimeYmdHms d).length = 14) ∧
      (∀ s : String, isDigitsLen 14 s = true → _gdelt_fmt (.ofStr s) = .ok s) ∧
      (∀ s : String, isDigitsLen 8 s = true →
        _gdelt_fmt (.ofStr s) = .ok (s ++ "000000")) ∧
      (∀ s : String, isIsoDate s = true →
        _gdelt_fmt (.ofStr s) = .ok (removeDashes s ++ "000000")) ∧
      _gdelt_fmt (.ofStr "2024-03-01") = .ok "20240301000000" ∧
      (∀ s : String, isDigitsLen 14 (pyStrip s) = false →
        isDigitsLen 8 (pyStrip s) = false → isIsoDate (pyStrip s) = false →
        _gdelt_fmt (.ofStr s) =
          .error ("Unsupported datetime format for GDELT: " ++ s)) ∧
      _gdelt_fmt (.ofStr "not-a-date") =
        .error "Unsupported datetime format for GDELT: not-a-date" := by
  refine ⟨fun d => ⟨rfl, rfl⟩, ?_, ?_, ?_, by rfl, ?_, by rfl⟩
  · intro s h
    have hall : ∀ c ∈ s.data, pySpace c = false := by
      simp only [isDigitsLen, Bool.and_eq_true, beq_iff_eq, List.all_eq_true] at h
      exact fun c hc => pySpace_of_digit (h.2 c hc)
    simp only [_gdelt_fmt]
    rw [pyStrip_eq_self hall, if_pos h]
  · intro s h
    have hparts := h
    simp only [isDigitsLen, Bool.and_eq_true, beq_iff_eq, List.all_eq_true] at hparts
    have hall : ∀ c ∈ s.data, pySpace c = false :=
      fun c hc => pySpace_of_digit (hparts.2 c hc)
    have h14 : isDigitsLen 14 s = false := by
      simp [isDigitsLen, hparts.1]
    simp only [_gdelt_fmt]
    rw [pyStrip_eq_self hall, if_neg (by simp [h14]), if_pos h]
  · intro s h
    have hall := isoDate_no_space h
    have hlen : s.length = 10 := (isoDate_chars h).1
    have h14 : isDigitsLen 14 s = false := by simp [isDigitsLen, hlen]
    have h8 : isDigitsLen 8 s = false := by simp [isDigitsLen, hlen]
    simp only [_gdelt_fmt]
    rw [pyStrip_eq_self hall, if_neg (by simp [h14]), if_neg (by simp [h8]),
      if_pos h]
  · intro s h14 h8 hiso
    simp only [_gdelt_fmt]
    rw [if_neg (by simp [h14]), if_neg (by simp [h8]), if_neg (by simp [hiso])]

/-- Witness for C5 at a 14-digit timestamp, an 8-digit date and an ISO
date. -/
theorem c5_gdelt_fmt_normalizes_witness :
    _gdelt_fmt (.ofStr "20240301123000") = .ok "20240301123000" :=
  c5_gdelt_fmt_normalizes.2.1 "20240301123000" (by decide)

/-- C1 counterexample: the repair controller can issue more than one retry
for one original query string.  For the query `"a bcd"`, a first error
response reporting an illegal character rewrites the query by wrapping it in
quotes (first retry), and a second error response reporting a too-short
token rewrites it again (second retry), so the retry count reaches 2. -/
theorem c1_counterexample :
    (search_gdelt_single "a bcd"
        [.nonJson "illegal character", .nonJson "too short", .json []]).2 = 2 ∧
      ¬(search_gdelt_single "a bcd"
        [.nonJson "illegal character", .nonJson "too short", .json []]).2 ≤ 1 := by
  have h2 : (search_gdelt_single "a bcd"
      [.nonJson "illegal character", .nonJson "too short", .json []]).2 = 2 := by
    decide
  exact ⟨h2, by rw [h2]; omega⟩

/-- C1 (amended): each retry of the repair controller consumes one non-JSON
error response, so the number of retries never exceeds the number of error
responses received (in particular the protocol terminates on any finite
response sequence); the bound one-retry-total does not hold (see the
counterexample). -/
theorem c1_retry_bounded_by_error_responses (q : String) (resps : List GdeltHttp) :
    (search_gdelt_single q resps).2 ≤ countNonJson resps := by
  induction resps generalizing q with
  | nil => simp [search_gdelt_single]
  | cons r rest ih =>
    cases r with
    | json arts => simp [search_gdelt_single, countNonJson]
    | fail => simp [search_gdelt_single, countNonJson]
    | nonJson body =>
      have hcnt : countNonJson (GdeltHttp.nonJson body :: rest) =
          countNonJson rest + 1 := by
        simp [countNonJson, isNonJsonResp]
      rw [hcnt]
      simp only [search_gdelt_single]
      cases hfix : _retry_fix_query q (headSnippet body) with
      | none => simp
      | some fixed =>
        dsimp only
        by_cases hne : fixed ≠ q
        · rw [if_pos hne]
          exact Nat.succ_le_succ (ih fixed)
        · rw [if_neg hne]
          simp

/-- One variant's inner loop agrees with processing the concatenated
stream: a short-circuit return inside the hits ignores the rest of the
stream, otherwise processing continues with the updated state. -/
theorem gdeltInner_stream (limit : Nat) :
    ∀ (hits rest urls seen : List String),
      streamCollect limit urls seen (hits ++ rest) =
        match gdeltInner limit urls seen hits with
        | (us, _, true) => us
        | (us, ss, false) => streamCollect limit us ss rest := by
  intro hits
  induction hits with
  | nil => intro rest urls seen; rfl
  | cons u hs ih =>
    intro rest urls seen
    simp only [List.cons_append, streamCollect, gdeltInner]
    by_cases hc : u ≠ "" ∧ u ∉ seen
    · rw [if_pos hc]
      dsimp only
      by_cases hl : limit ≤ (urls ++ [u]).length
      · rw [if_pos hl, if_pos hl]
      · rw [if_neg hl, if_neg hl]
        exact ih rest (urls ++ [u]) (u :: seen)
    · rw [if_neg hc]
      dsimp only
      by_cases hl : limit ≤ urls.length
      · rw [if_pos hl, if_pos hl]
      · rw [if_neg hl, if_neg hl]
        exact ih rest urls seen

/-- The two nested loops of `search_gdelt_variants` are the single pass of
its accumulation body over the concatenation of all variants' hits. -/
theorem gdeltOuter_stream (results : String → List String) (limit : Nat) :
    ∀ (qs urls seen : List String),
      gdeltOuter results limit urls seen qs =
        streamCollect limit urls seen ((qs.map results).flatten) := by
  intro qs
  induction qs with
  | nil => intro urls seen; rfl
  | cons qv rest ih =>
    intro urls seen
    simp only [gdeltOuter, List.map_cons, List.flatten_cons]
    rw [gdeltInner_stream]
    rcases hgi : gdeltInner limit urls seen (results qv) with ⟨us, ss, done⟩
    cases done
    · dsimp only
      exact ih us ss
    · rfl

/-- Processing the stream appends, up to the remaining capacity, exactly the
first-seen deduplication of the stream. -/
theorem streamCollect_eq (limit : Nat) :
    ∀ (stream urls seen : List String), urls.length < limit →
      streamCollect limit urls seen stream =
        urls ++ (firstSeenDedup seen stream).take (limit - urls.length) := by
  intro stream
  induction stream with
  | nil => intro urls seen _; simp [streamCollect, firstSeenDedup]
  | cons u rest ih =>
    intro urls seen hlt
    simp only [streamCollect, firstSeenDedup]
    have hlen : (urls ++ [u]).length = urls.length + 1 := by simp
    by_cases hc : u ≠ "" ∧ u ∉ seen
    · rw [if_pos hc, if_pos hc]
      dsimp only
      by_cases hl : limit ≤ (urls ++ [u]).length
      · rw [if_pos hl]
        have hone : limit - urls.length = 1 := by omega
        rw [hone]
        rfl
      · rw [if_neg hl]
        have h2 : (urls ++ [u]).length < limit := by omega
        rw [ih (urls ++ [u]) (u :: seen) h2]
        have hstep : limit - urls.length = (limit - (urls ++ [u]).length) + 1 := by
          omega
        rw [hstep, List.take_succ_cons, List.append_assoc]
        rfl
    · rw [if_neg hc, if_neg hc]
      dsimp only
      rw [if_neg (show ¬limit ≤ urls.length by omega)]
      exact ih urls seen hlt

/-- First-seen deduplication only emits URLs outside `seen`. -/
theorem firstSeenDedup_not_seen :
    ∀ (stream seen : List String) (x : String),
      x ∈ firstSeenDedup seen stream → x ∉ seen := by
  intro stream
  induction stream with
  | nil => intro seen x hx; simp [firstSeenDedup] at hx
  | cons u rest ih =>
    intro seen x hx
    simp only [firstSeenDedup] at hx
    split at hx
    · rename_i hc
      rcases List.mem_cons.mp hx with rfl | hx'
      · exact hc.2
      · intro hxs
        exact ih (u :: seen) x hx' (List.mem_cons_of_mem u hxs)
    · exact ih seen x hx

/-- First-seen deduplication emits no duplicates. -/
theorem firstSeenDedup_nodup :
    ∀ (stream seen : List String), (firstSeenDedup seen stream).Nodup := by
  intro stream
  induction stream with
  | nil => intro seen; simp [firstSeenDedup]
  | cons u rest ih =>
    intro seen
    simp only [firstSeenDedup]
    split
    · rw [List.nodup_cons]
      exact ⟨fun hx => firstSeenDedup_not_seen rest (u :: seen) u hx (by simp),
        ih (u :: seen)⟩
    · exact ih seen

/-- C7: `search_gdelt_variants` returns exactly the first `limit` URLs of
the first-seen deduplication (by exact string equality) of the variants'
hits concatenated in generation order — i.e. it accumulates across variants
in order and stops as soon as the limit is reached — and consequently the
result has no duplicates and never exceeds the limit. -/
theorem c7_variant_fanout (results : String → List String) (sentence : String)
    (limit : Nat) (hpos : 1 ≤ limit) :
    search_gdelt_variants results sentence limit =
        (firstSeenDedup []
          (((build_gdelt_queries sentence).map results).flatten)).take limit ∧
      (search_gdelt_variants results sentence limit).Nodup ∧
      (search_gdelt_variants results sentence limit).length ≤ limit := by
  have hmain : search_gdelt_variants results sentence limit =
      (firstSeenDedup []
        (((build_gdelt_queries sentence).map results).flatten)).take limit := by
    unfold search_gdelt_variants
    rw [gdeltOuter_stream,
      streamCollect_eq limit _ [] [] (by simpa using hpos)]
    simp
  refine ⟨hmain, ?_, ?_⟩
  · rw [hmain]
    exact (List.take_sublist _ _).nodup (firstSeenDedup_nodup _ _)
  · rw [hmain]
    exact List.length_take_le _ _

/-- Witness for C7 at a concrete sentence, hit list and limit 2. -/
theorem c7_variant_fanout_witness :
    search_gdelt_variants (fun _ => ["u1", "u2", "u1", "u3"])
        "Central bank raises rates amid inflation concerns" 2 =
        (firstSeenDedup []
          (((build_gdelt_queries
            "Central bank raises rates amid inflation concerns").map
              (fun _ => ["u1", "u2", "u1", "u3"])).flatten)).take 2 ∧
      (search_gdelt_variants (fun _ => ["u1", "u2", "u1", "u3"])
        "Central bank raises rates amid inflation concerns" 2).Nodup ∧
      (search_gdelt_variants (fun _ => ["u1", "u2", "u1", "u3"])
        "Central bank raises rates amid inflation concerns" 2).length ≤ 2 :=
  c7_variant_fanout (fun _ => ["u1", "u2", "u1", "u3"])
    "Central bank raises rates amid inflation concerns" 2 (by decide)
